import Mathlib

/-!
Verification of the connection-acceptance / work-distribution core of tntnet
(`src/tntnet/framework/common/job.cpp`): the bounded `Jobqueue`, the
`Tcpjob` / `SslTcpjob` accept-regenerate-handshake protocol, and the `Job`
timeout and state bookkeeping.

The C++ is shallowly embedded:

* `Jobqueue` becomes a state `QState` (the `jobs` deque plus the `capacity`
  bound).  Its blocking `put`/`get` are embedded as an atomic step relation
  `QStep`: the C++ `while (jobs.size() >= capacity) notFull.wait(lock);`
  loop means a non-forced `put` can only complete (append) in a state where
  the guard finally failed, i.e. `jobs.size() < capacity`; re-checking on
  every wake is exactly what makes the enabling condition hold at the moment
  of the append.  `get` likewise completes only in a state with a non-empty
  queue and pops the front.
* `Tcpjob::getStream` / `SslTcpjob::getStream` become pure functions that
  return the outcome (`Except`, since `accept`/`handshake` may throw) plus
  the ordered trace of externally visible events (accept attempt, enqueue
  into the queue, handshake attempt) and the state of a fresh-object
  allocator (`new Tcpjob(...)` consumes one fresh identity).
* machine integers are `Int`/`Nat` (values involved are far from the
  32/64-bit bounds at every claim).
-/

namespace tnt

/-! ### Jobqueue (`Jobqueue::put`, `Jobqueue::get`) -/

/-- State of a `Jobqueue`: the `std::deque<JobPtr> jobs` (front = head = next
to be popped by `get`, back = tail = where `put` appends) and the `capacity`
field.  `capacity = 0` means unbounded (the C++ capacity check is guarded by
`capacity > 0`).  Jobs are abstract (`α` stands for `JobPtr`). -/
structure QState (α : Type) where
  jobs : List α
  capacity : Nat
deriving DecidableEq, Repr

/-- Initial queue: empty `jobs`, given capacity. -/
def QState.init (α : Type) (capacity : Nat) : QState α :=
  { jobs := [], capacity := capacity }

/-- The body of `Jobqueue::put` once the capacity wait-loop has exited:
`jobs.push_back(j)`. -/
def QState.pushBack {α : Type} (s : QState α) (j : α) : QState α :=
  { s with jobs := s.jobs ++ [j] }

/-- The body of `Jobqueue::get` once the not-empty wait-loop has exited:
`j = jobs.front(); jobs.pop_front(); return j`. -/
def QState.popFront {α : Type} (s : QState α) : Option (α × QState α) :=
  match s.jobs with
  | [] => none
  | j :: rest => some (j, { s with jobs := rest })

/-- Exit condition of the `put` wait loop, from
`if (!force && capacity > 0) { while (jobs.size() >= capacity) wait; }`:
a `put` proceeds to the append exactly when `force` is set, or the queue is
unbounded, or `jobs.size() < capacity`. -/
def QState.putMayProceed {α : Type} (s : QState α) (force : Bool) : Bool :=
  force || s.capacity == 0 || decide (s.jobs.length < s.capacity)

/-- One observable queue operation: a completed `put(j, force)` or a
completed `get()` returning `j`. -/
inductive QOp (α : Type) where
  | put (j : α) (force : Bool)
  | get (j : α)
deriving DecidableEq, Repr

/-- Atomic completion of `Jobqueue::put` / `Jobqueue::get` under the queue
mutex.  A blocked call is simply a step that is not (yet) enabled; since the
wait loops re-check their guards on every wake, the call completes only from
a state where the guard finally allows it, which is what each premise
captures. -/
inductive QStep (α : Type) : QState α → QOp α → QState α → Prop where
  | put (s : QState α) (j : α) (force : Bool)
      (hc : s.putMayProceed force = true) :
      QStep α s (QOp.put j force) (s.pushBack j)
  | get (s : QState α) (j : α) (s' : QState α)
      (h : s.popFront = some (j, s')) :
      QStep α s (QOp.get j) s'

/-- States reachable from a given queue state by any sequence of completed
`put`/`get` calls. -/
inductive QReach (α : Type) : QState α → QState α → Prop where
  | refl (s : QState α) : QReach α s s
  | step (s t u : QState α) (op : QOp α)
      (hr : QReach α s t) (hs : QStep α t op u) : QReach α s u

/-! ### Tcpjob / SslTcpjob (accept / regenerate / handshake protocol) -/

/-- Concrete kind of a job: `Tcpjob` (plain TCP) or `SslTcpjob`
(encrypted). -/
inductive JobKind where
  | tcp
  | ssl
deriving DecidableEq, Repr

/-- State of a `Tcpjob` / `SslTcpjob` relevant to the accept / regenerate /
handshake protocol: `id` stands for object identity (`this`); `kind` is the
concrete class; `app` is the opaque application handle
(`getRequest().getApplication()`); `listener` and `queueId` are the
back-references to the listening socket and the `Jobqueue`; `connected` is
`socket.isConnected()`; `handshaked` records whether
`socket.handshake(listener)` has completed (always false for the plain
kind). -/
structure TJob where
  id : Nat
  kind : JobKind
  app : Nat
  listener : Nat
  queueId : Nat
  connected : Bool
  handshaked : Bool
deriving DecidableEq, Repr

/-- Externally visible events of `getStream`, in the order they occur: an
accept attempt (`ok` = whether `socket.accept(listener)` returned or threw),
a `queue.put(j, force)` call, and a handshake attempt. -/
inductive Event where
  | acceptTry (ok : Bool)
  | enqueue (j : TJob) (force : Bool)
  | handshakeTry (ok : Bool)
deriving DecidableEq, Repr

/-- Force flag of an enqueue event, `none` for the other events. -/
def Event.forceOf : Event → Option Bool
  | Event.enqueue _ f => some f
  | _ => none

/-- The jobs enqueued by a trace of events, with their force flags, in
order. -/
def enqueuesOf (tr : List Event) : List (TJob × Bool) :=
  tr.filterMap fun e =>
    match e with
    | Event.enqueue j f => some (j, f)
    | _ => none

/-- Modelled from the spec: `Jobqueue::put` is declared (in the header
`tnt/job.h`, which is not part of this tree) with signature
`put(job, force=false)`, so a one-argument call `queue.put(j)` is a
non-forced put. -/
def putDefaultForce : Bool := false

/-- `Tcpjob::regenerateJob` / `SslTcpjob::regenerateJob` (identical policy,
each constructing its own concrete kind).  If `Tntnet::shouldStop()`:
`queue.put(this)` — the same instance, no constructor call, hence no new
socket, and the fresh-identity allocator `nextId` is untouched.  Otherwise:
`queue.put(new Tcpjob(getRequest().getApplication(), listener, queue))` — a
fresh object (identity `nextId`, which is consumed) of the same kind, bound
to the same application, listener and queue, its socket neither connected
nor handshaked.  Both calls pass no `force` argument, so both use
`putDefaultForce`. -/
def TJob.regenerateJob (shouldStop : Bool) (self : TJob) (nextId : Nat) :
    Event × Nat :=
  if shouldStop then
    (Event.enqueue self putDefaultForce, nextId)
  else
    (Event.enqueue
      { id := nextId, kind := self.kind, app := self.app,
        listener := self.listener, queueId := self.queueId,
        connected := false, handshaked := false } putDefaultForce,
      nextId + 1)

/-- `Tcpjob::getStream`: if `socket.isConnected()` already, return the
stream with no side effects.  Otherwise `accept()` (which throws iff
`acceptOk` is false); on a throw, `regenerateJob()` runs and then the
exception is re-raised (`Except.error`); on success, `regenerateJob()` runs
unconditionally and the now-connected socket stream is returned.  The result
carries the outcome, the ordered event trace, and the allocator state. -/
def Tcpjob.getStream (shouldStop acceptOk : Bool) (self : TJob)
    (nextId : Nat) : Except Unit TJob × List Event × Nat :=
  if self.connected then
    (Except.ok self, [], nextId)
  else if acceptOk then
    let selfAcc := { self with connected := true }
    let r := TJob.regenerateJob shouldStop selfAcc nextId
    (Except.ok selfAcc, [Event.acceptTry true, r.1], r.2)
  else
    let r := TJob.regenerateJob shouldStop self nextId
    (Except.error (), [Event.acceptTry false, r.1], r.2)

/-- `SslTcpjob::getStream`: as `Tcpjob::getStream`, except that after the
unconditional `regenerateJob()` on a successful accept, `handshake()` runs
— but only `if (!Tntnet::shouldStop())`; a handshake failure propagates
(`Except.error`) strictly after the regeneration. -/
def SslTcpjob.getStream (shouldStop acceptOk handshakeOk : Bool)
    (self : TJob) (nextId : Nat) : Except Unit TJob × List Event × Nat :=
  if self.connected then
    (Except.ok self, [], nextId)
  else if acceptOk then
    let selfAcc := { self with connected := true }
    let r := TJob.regenerateJob shouldStop selfAcc nextId
    if shouldStop then
      (Except.ok selfAcc, [Event.acceptTry true, r.1], r.2)
    else if handshakeOk then
      (Except.ok { selfAcc with handshaked := true },
        [Event.acceptTry true, r.1, Event.handshakeTry true], r.2)
    else
      (Except.error (),
        [Event.acceptTry true, r.1, Event.handshakeTry false], r.2)
  else
    let r := TJob.regenerateJob shouldStop self nextId
    (Except.error (), [Event.acceptTry false, r.1], r.2)

/-- `getStream` dispatched on the concrete kind (the virtual call through
the `Job` base class). -/
def TJob.getStream (shouldStop acceptOk handshakeOk : Bool) (self : TJob)
    (nextId : Nat) : Except Unit TJob × List Event × Nat :=
  match self.kind with
  | JobKind.tcp => Tcpjob.getStream shouldStop acceptOk self nextId
  | JobKind.ssl => SslTcpjob.getStream shouldStop acceptOk handshakeOk self nextId

/-- A sample not-yet-connected plain job used for concrete evaluations. -/
def sampleJob : TJob :=
  { id := 0, kind := JobKind.tcp, app := 0, listener := 1, queueId := 2,
    connected := false, handshaked := false }

/-- A sample not-yet-connected encrypted job. -/
def sampleSslJob : TJob :=
  { id := 3, kind := JobKind.ssl, app := 0, listener := 1, queueId := 2,
    connected := false, handshaked := false }

/-- A sample already-connected plain job. -/
def sampleConnectedJob : TJob :=
  { id := 4, kind := JobKind.tcp, app := 0, listener := 1, queueId := 2,
    connected := true, handshaked := false }

/-! ### Job: timeout arithmetic, tunables, clear -/

/-- `Job::msecToTimeout(currentTime)`: returns
`(lastAccessTime - currentTime + 1) * 1000 + getKeepAliveTimeout() -
getSocketReadTimeout()`.  `lastAccessTime` and `currentTime` are `time_t`
seconds; the keep-alive timeout `K` (milliseconds, delegated to
`HttpReply::getKeepAliveTimeout()`, an external collaborator) and the
socket read timeout `R` (the static tunable) are unsigned values, taken
here as `Nat` parameters.  All values at play are far below the `int`
bounds, so the arithmetic is embedded in `Int`. -/
def msecToTimeout (lastAccessTime : Int) (K R : Nat) (currentTime : Int) : Int :=
  (lastAccessTime - currentTime + 1) * 1000 + (K : Int) - (R : Int)

/-- Static `unsigned Job::socket_read_timeout = 10;`. -/
def Job.socket_read_timeout : Nat := 10

/-- Static `unsigned Job::socket_write_timeout = 10000;`. -/
def Job.socket_write_timeout : Nat := 10000

/-- Static `unsigned Job::keepalive_max = 1000;`. -/
def Job.keepalive_max : Nat := 1000

/-- Static `unsigned Job::socket_buffer_size = 16384;`. -/
def Job.socket_buffer_size : Nat := 16384

/-- State of the parsing collaborator owned by a `Job`; `parser.reset()`
puts it into the distinguished reset state, other values stand for
mid-parse states. -/
structure ParserState where
  raw : Nat
deriving DecidableEq, Repr

/-- The state `parser.reset()` establishes. -/
def ParserState.reset : ParserState := { raw := 0 }

/-- The in-progress / most-recent request object owned by a `Job`;
`request.clear()` puts it into the distinguished cleared state. -/
structure Request where
  raw : Nat
deriving DecidableEq, Repr

/-- The state `request.clear()` establishes. -/
def Request.cleared : Request := { raw := 0 }

/-- Fields of a concrete job as far as `Job::clear` is concerned: the
parser and request the `Job` base owns, its `lastAccessTime`, and the
socket plus listener/queue back-references of the derived
`Tcpjob`/`SslTcpjob`. -/
structure JobRec where
  parser : ParserState
  request : Request
  lastAccessTime : Int
  socket : Nat
  listener : Nat
  queueId : Nat
deriving DecidableEq, Repr

/-- `Job::clear()`: `parser.reset(); request.clear();` — nothing else. -/
def JobRec.clear (j : JobRec) : JobRec :=
  { j with parser := ParserState.reset, request := Request.cleared }

/-- Every step leaves the `capacity` field unchanged. -/
theorem QStep.capacity_eq {α : Type} {s u : QState α} {op : QOp α}
    (h : QStep α s op u) : u.capacity = s.capacity := by
  cases h with
  | put j force hc => rfl
  | get j s' hpop =>
    unfold QState.popFront at hpop
    cases hjobs : s.jobs with
    | nil => rw [hjobs] at hpop; exact absurd hpop (by simp)
    | cons a rest =>
      rw [hjobs] at hpop
      simp only [Option.some.injEq, Prod.mk.injEq] at hpop
      rw [← hpop.2]

/-- Reachability preserves the `capacity` field. -/
theorem QReach.capacity_preserved {α : Type} {s t : QState α}
    (h : QReach α s t) : t.capacity = s.capacity := by
  induction h with
  | refl => rfl
  | step t u op hr hs ih => rw [QStep.capacity_eq hs, ih]

end tnt

/-! ### Theorems for the Jobqueue claims -/

namespace tnt

/-- C1: in every execution of the `Jobqueue` (any state reachable from the
initial queue of capacity `C > 0` by completed `put`/`get` calls), a
non-forced `put(j, force=false)` completes only from a state with
`jobs.size() < C` — the wait loop re-checks this on every wake — and then
appends `j` to the tail; hence the queue length at the moment the non-forced
`put` returns never exceeds `C`, and the job is appended, never dropped (and
the step has no failure outcome: capacity exhaustion blocks, it never
raises). -/
theorem jobqueue_put_capacity_invariant {α : Type} (C : Nat) (hC : 0 < C)
    (s u : QState α) (j : α)
    (hreach : QReach α (QState.init α C) s)
    (hstep : QStep α s (QOp.put j false) u) :
    s.jobs.length < C ∧ u.jobs = s.jobs ++ [j] ∧ u.jobs.length ≤ C := by
  have hcap : s.capacity = C := by
    have := hreach.capacity_preserved
    simpa [QState.init] using this
  cases hstep with
  | put j force hc =>
    unfold QState.putMayProceed at hc
    rw [hcap] at hc
    simp only [Bool.or_eq_true, beq_iff_eq, decide_eq_true_eq] at hc
    have hlt : s.jobs.length < C := by
      rcases hc with (hfalse | hzero) | hlt
      · cases hfalse
      · omega
      · exact hlt
    refine ⟨hlt, rfl, ?_⟩
    simp only [QState.pushBack, List.length_append, List.length_singleton]
    omega

/-- C1 witness: a concrete run — capacity 2, one forced-free `put 7` from the
empty queue — satisfies the hypotheses, and the conclusion evaluates. -/
theorem jobqueue_put_capacity_invariant_witness :
    (QState.init Nat 2).jobs.length < 2 ∧
      ((QState.init Nat 2).pushBack 7).jobs = (QState.init Nat 2).jobs ++ [7] ∧
      ((QState.init Nat 2).pushBack 7).jobs.length ≤ 2 :=
  jobqueue_put_capacity_invariant 2 (by decide)
    (QState.init Nat 2) ((QState.init Nat 2).pushBack 7) 7
    (QReach.refl _)
    (QStep.put _ 7 false (by decide))

/-- C2: the `Jobqueue` is strictly FIFO — `put` appends at the tail
(`jobs.push_back`), `get` pops the head (`jobs.front` / `jobs.pop_front`);
for any jobs `J1, J2, J3` enqueued in that order into an empty queue with no
intervening `get`, three subsequent completed `get` calls return `J1`, `J2`,
`J3` in that order. -/
theorem jobqueue_fifo {α : Type} (C : Nat) (J1 J2 J3 : α)
    (f1 f2 f3 : Bool)
    (s1 s2 s3 s4 s5 s6 : QState α) (x1 x2 x3 : α)
    (h1 : QStep α (QState.init α C) (QOp.put J1 f1) s1)
    (h2 : QStep α s1 (QOp.put J2 f2) s2)
    (h3 : QStep α s2 (QOp.put J3 f3) s3)
    (g1 : QStep α s3 (QOp.get x1) s4)
    (g2 : QStep α s4 (QOp.get x2) s5)
    (g3 : QStep α s5 (QOp.get x3) s6) :
    x1 = J1 ∧ x2 = J2 ∧ x3 = J3 := by
  cases h1 with
  | put _ _ _ =>
  cases h2 with
  | put _ _ _ =>
  cases h3 with
  | put _ _ _ =>
  cases g1 with
  | get _ _ hp1 =>
  simp only [QState.init, QState.pushBack, QState.popFront, List.nil_append,
    List.cons_append, Option.some.injEq, Prod.mk.injEq] at hp1
  obtain ⟨hx1, hs4⟩ := hp1
  cases g2 with
  | get _ _ hp2 =>
  rw [← hs4] at hp2
  simp only [QState.popFront, Option.some.injEq, Prod.mk.injEq] at hp2
  obtain ⟨hx2, hs5⟩ := hp2
  cases g3 with
  | get _ _ hp3 =>
  rw [← hs5] at hp3
  simp only [QState.popFront, Option.some.injEq, Prod.mk.injEq] at hp3
  exact ⟨hx1.symm, hx2.symm, hp3.1.symm⟩

/-- C2 witness: the concrete run with capacity 3 and jobs 10, 20, 30 — each
`put` and `get` step is checked by `decide`, and the three `get`s return
10, 20, 30. -/
theorem jobqueue_fifo_witness : (10 : Nat) = 10 ∧ (20 : Nat) = 20 ∧ (30 : Nat) = 30 :=
  jobqueue_fifo 3 10 20 30 false false false
    ⟨[10], 3⟩ ⟨[10, 20], 3⟩ ⟨[10, 20, 30], 3⟩ ⟨[20, 30], 3⟩ ⟨[30], 3⟩ ⟨[], 3⟩
    10 20 30
    (QStep.put _ 10 false (by decide))
    (QStep.put _ 20 false (by decide))
    (QStep.put _ 30 false (by decide))
    (QStep.get _ 10 _ (by decide))
    (QStep.get _ 20 _ (by decide))
    (QStep.get _ 30 _ (by decide))

/-- C7: a forced `put(j, force=true)` is enabled in every queue state —
including states at or above the capacity bound — and its only outcome is
the immediate append of `j` at the tail: the capacity wait-loop is skipped
entirely (`!force` fails), so the call never blocks on the capacity
condition. -/
theorem jobqueue_put_forced_bypass {α : Type} (s : QState α) (j : α) :
    QStep α s (QOp.put j true) (s.pushBack j) ∧
      (∀ u : QState α, QStep α s (QOp.put j true) u → u = s.pushBack j) := by
  constructor
  · exact QStep.put s j true (by simp [QState.putMayProceed])
  · intro u hu
    cases hu with
    | put _ _ _ => rfl

/-- C7 witness: applied to a queue of capacity 1 already holding 2 jobs
(over capacity), the forced put steps to the 3-job queue, and that is its
only outcome. -/
theorem jobqueue_put_forced_bypass_witness :
    QStep Nat ⟨[5, 6], 1⟩ (QOp.put 9 true) ((⟨[5, 6], 1⟩ : QState Nat).pushBack 9) ∧
      (∀ u : QState Nat, QStep Nat ⟨[5, 6], 1⟩ (QOp.put 9 true) u →
        u = (⟨[5, 6], 1⟩ : QState Nat).pushBack 9) :=
  jobqueue_put_forced_bypass ⟨[5, 6], 1⟩ 9

/-- C3: `getStream` on a not-yet-connected `Tcpjob`/`SslTcpjob` while the
server is not stopping enqueues exactly one job, which is a new object
(fresh identity `nextId`, the allocator advances) of the same concrete kind
bound to the same application, listener and queue; this happens whether
`accept()` succeeds or throws, and in the throwing case the enqueue has
already occurred when the exception propagates (`Except.error`), so a
failed accept does not shrink listener capacity. -/
theorem getStream_regenerates_one_new_job (acceptOk handshakeOk : Bool)
    (self : TJob) (nextId : Nat)
    (hconn : self.connected = false) (hfresh : nextId ≠ self.id) :
    enqueuesOf (TJob.getStream false acceptOk handshakeOk self nextId).2.1 =
      [({ id := nextId, kind := self.kind, app := self.app,
          listener := self.listener, queueId := self.queueId,
          connected := false, handshaked := false }, false)] ∧
    (∀ p ∈ enqueuesOf (TJob.getStream false acceptOk handshakeOk self nextId).2.1,
        p.1.id ≠ self.id ∧ p.1.kind = self.kind ∧ p.1.app = self.app ∧
        p.1.listener = self.listener ∧ p.1.queueId = self.queueId) ∧
    (TJob.getStream false acceptOk handshakeOk self nextId).2.2 = nextId + 1 ∧
    (acceptOk = false →
      (TJob.getStream false acceptOk handshakeOk self nextId).1 = Except.error ()) := by
  cases hk : self.kind <;> cases acceptOk <;> cases handshakeOk <;>
    simp_all [TJob.getStream, Tcpjob.getStream, SslTcpjob.getStream,
      TJob.regenerateJob, enqueuesOf, putDefaultForce]

/-- C3 witness: concrete evaluation on the sample unconnected plain job with
fresh identity 5, both hypotheses discharged by `rfl`/`decide`. -/
theorem getStream_regenerates_one_new_job_witness :
    enqueuesOf (TJob.getStream false true true sampleJob 5).2.1 =
      [({ id := 5, kind := sampleJob.kind, app := sampleJob.app,
          listener := sampleJob.listener, queueId := sampleJob.queueId,
          connected := false, handshaked := false }, false)] ∧
    (∀ p ∈ enqueuesOf (TJob.getStream false true true sampleJob 5).2.1,
        p.1.id ≠ sampleJob.id ∧ p.1.kind = sampleJob.kind ∧
        p.1.app = sampleJob.app ∧ p.1.listener = sampleJob.listener ∧
        p.1.queueId = sampleJob.queueId) ∧
    (TJob.getStream false true true sampleJob 5).2.2 = 5 + 1 ∧
    (true = false →
      (TJob.getStream false true true sampleJob 5).1 = Except.error ()) :=
  getStream_regenerates_one_new_job true true sampleJob 5 rfl (by decide)

/-- C4: `SslTcpjob::getStream` on a not-yet-connected socket with a
successful accept runs its phases in the order accept, then enqueue of the
replacement job, then — only when the server is not stopping — handshake.
When stopping, the trace has no handshake attempt and the job is returned
accepted (`connected`) but unhandshaked; when not stopping, the trace ends
with the handshake attempt strictly after the enqueue, and a handshake
failure yields `Except.error` with the replacement already enqueued. -/
theorem sslGetStream_phase_order (handshakeOk : Bool) (self : TJob)
    (nextId : Nat) (hconn : self.connected = false)
    (hhs : self.handshaked = false) :
    (SslTcpjob.getStream true true handshakeOk self nextId =
      (Except.ok { self with connected := true },
        [Event.acceptTry true,
         Event.enqueue { self with connected := true } false],
        nextId) ∧
      ({ self with connected := true } : TJob).handshaked = false) ∧
    (SslTcpjob.getStream false true handshakeOk self nextId =
      ((if handshakeOk then
          Except.ok { self with connected := true, handshaked := true }
        else Except.error ()),
        [Event.acceptTry true,
         Event.enqueue
           { id := nextId, kind := self.kind, app := self.app,
             listener := self.listener, queueId := self.queueId,
             connected := false, handshaked := false } false,
         Event.handshakeTry handshakeOk],
        nextId + 1)) := by
  cases handshakeOk <;>
    simp_all [SslTcpjob.getStream, TJob.regenerateJob, putDefaultForce]

/-- C4 witness: concrete evaluation on the sample unconnected encrypted job
with fresh identity 7 and a failing handshake, hypotheses discharged by
`rfl`. -/
theorem sslGetStream_phase_order_witness :
    (SslTcpjob.getStream true true false sampleSslJob 7 =
      (Except.ok { sampleSslJob with connected := true },
        [Event.acceptTry true,
         Event.enqueue { sampleSslJob with connected := true } false],
        7) ∧
      ({ sampleSslJob with connected := true } : TJob).handshaked = false) ∧
    (SslTcpjob.getStream false true false sampleSslJob 7 =
      ((if false then
          Except.ok { sampleSslJob with connected := true, handshaked := true }
        else Except.error ()),
        [Event.acceptTry true,
         Event.enqueue
           { id := 7, kind := sampleSslJob.kind, app := sampleSslJob.app,
             listener := sampleSslJob.listener, queueId := sampleSslJob.queueId,
             connected := false, handshaked := false } false,
         Event.handshakeTry false],
        7 + 1)) :=
  sslGetStream_phase_order false sampleSslJob 7 rfl rfl

/-- C5 counterexample: the claim says the stopping-time self-re-enqueue goes
through `put` with `force=true`; on the sample job it in fact goes through
the one-argument `queue.put(this)`, whose default force flag is `false` —
not `true`. -/
theorem regenerateJob_stopping_not_forced :
    Event.forceOf (TJob.regenerateJob true sampleJob 5).1 = some false ∧
      Event.forceOf (TJob.regenerateJob true sampleJob 5).1 ≠ some true := by
  exact ⟨by decide, by decide⟩

/-- C5 (amended): when the shutdown predicate reports true,
`regenerateJob()` — both variants — re-enqueues the same job instance
(same identity, no constructor call: the fresh-identity allocator is left
untouched, so no new socket is opened), but it does so via the
one-argument `queue.put(this)`, i.e. with the default `force = false`, so
the self-re-enqueue is subject to the capacity check rather than bypassing
it. -/
theorem regenerateJob_stopping_self_requeue (self : TJob) (nextId : Nat) :
    TJob.regenerateJob true self nextId = (Event.enqueue self false, nextId) :=
  rfl

/-- C6: `Job::msecToTimeout` returns exactly
`(lastAccessTime - currentTime + 1) * 1000 + K - R`; at
`currentTime = lastAccessTime` this is `1000 + K - R`; the value strictly
decreases as the query time advances; and it is non-positive (expire now)
exactly once the elapsed whole seconds beyond the one-second pad, in
milliseconds and together with the read timeout, cover the keep-alive
window `K`. -/
theorem msecToTimeout_arith (t0 : Int) (K R : Nat) :
    (∀ c : Int, msecToTimeout t0 K R c =
      (t0 - c + 1) * 1000 + (K : Int) - (R : Int)) ∧
    msecToTimeout t0 K R t0 = 1000 + (K : Int) - (R : Int) ∧
    (∀ c1 c2 : Int, c1 < c2 →
      msecToTimeout t0 K R c2 < msecToTimeout t0 K R c1) ∧
    (∀ c : Int, msecToTimeout t0 K R c ≤ 0 ↔
      (K : Int) ≤ (c - t0 - 1) * 1000 + (R : Int)) := by
  refine ⟨fun c => rfl, ?_, ?_, ?_⟩
  · unfold msecToTimeout; ring
  · intro c1 c2 h; unfold msecToTimeout; nlinarith
  · intro c; unfold msecToTimeout; omega

/-- C6 witness: with `t0 = 0`, `K = 2000`, `R = 10`, the value at time 5 is
strictly below the value at time 2 (the hypothesis `2 < 5` discharged by
`decide`). -/
theorem msecToTimeout_arith_witness :
    msecToTimeout 0 2000 10 5 < msecToTimeout 0 2000 10 2 :=
  (msecToTimeout_arith 0 2000 10).2.2.1 2 5 (by decide)

/-- C8: `getStream` on an already-connected job of either kind returns the
existing stream with no side effects: no accept, no enqueue, no handshake,
allocator untouched, job unchanged — so a second call after a successful
first call returns the same thing and changes nothing. -/
theorem getStream_connected_no_side_effects
    (shouldStop acceptOk handshakeOk : Bool) (self : TJob) (nextId : Nat)
    (hconn : self.connected = true) :
    TJob.getStream shouldStop acceptOk handshakeOk self nextId =
      (Except.ok self, [], nextId) := by
  cases hk : self.kind <;>
    simp [TJob.getStream, Tcpjob.getStream, SslTcpjob.getStream, hconn, hk]

/-- C8 witness: concrete evaluation on the sample connected job. -/
theorem getStream_connected_no_side_effects_witness :
    TJob.getStream false true true sampleConnectedJob 9 =
      (Except.ok sampleConnectedJob, [], 9) :=
  getStream_connected_no_side_effects false true true sampleConnectedJob 9 rfl

/-- C9: the four static tunables have the startup defaults 10, 10000, 1000
and 16384. -/
theorem tunables_defaults :
    Job.socket_read_timeout = 10 ∧ Job.socket_write_timeout = 10000 ∧
      Job.keepalive_max = 1000 ∧ Job.socket_buffer_size = 16384 :=
  ⟨rfl, rfl, rfl, rfl⟩

/-- C10: `Job::clear()` resets exactly the parser state and the request;
`lastAccessTime`, the socket, and the listener/queue back-references are
unchanged, for every job in every state. -/
theorem clear_frame (j : JobRec) :
    (JobRec.clear j).parser = ParserState.reset ∧
    (JobRec.clear j).request = Request.cleared ∧
    (JobRec.clear j).lastAccessTime = j.lastAccessTime ∧
    (JobRec.clear j).socket = j.socket ∧
    (JobRec.clear j).listener = j.listener ∧
    (JobRec.clear j).queueId = j.queueId :=
  ⟨rfl, rfl, rfl, rfl, rfl, rfl⟩

end tnt
